import Mathlib

/-! Shallow embedding of the streak-tracking and period-aggregation logic of
`src/mood-log/mood-log.controller.ts` (moodzie-api).

Timestamps are modelled as integers counting hours since an epoch in the
service's local time zone; epoch hour 0 falls on a Thursday
(`Date.getDay() = 4`), matching the JavaScript epoch 1970-01-01.
The `date-fns` helpers used by the source:
* `startOfDay` truncates a timestamp to its local day boundary;
* `differenceInCalendarDays a b` is the signed number of calendar days from
  the day of `b` to the day of `a`;
* `Date.prototype.getHours` / `getDay` extract the local hour-of-day and
  weekday (0 = Sunday .. 6 = Saturday).
A calendar date (the `yyyy-MM-dd` string produced by `format`) is represented
by its day number, which the string determines bijectively. -/

def dayNumber (t : Int) : Int := t.fdiv 24

def startOfDay (t : Int) : Int := 24 * dayNumber t

def differenceInCalendarDays (a b : Int) : Int := dayNumber a - dayNumber b

def getHours (t : Int) : Nat := (t % 24).toNat

def getDay (t : Int) : Nat := ((dayNumber t + 4) % 7).toNat

/-- The `mood_streaks` entity (`mood-streaks.entity.ts`). The four date
columns are nullable in the schema, hence `Option`. ORM-managed columns
(`id`, `createdAt`, `updatedAt`) carry no streak logic and are omitted. -/
structure MoodStreaks where
  userId : String
  currentStreak : Int
  longestStreak : Int
  lastLogDate : Option Int
  isActive : Bool
  currentStreakStartDate : Option Int
  longestStreakStartDate : Option Int
  longestStreakEndDate : Option Int
deriving DecidableEq, Repr

/-- `updateUserStreak` (mood-log.controller.ts, lines 949-1018). The
repository lookup is passed in as `existing`; `save` returns its argument. -/
def updateUserStreak (userId : String) (logDate : Int)
    (existing : Option MoodStreaks) : MoodStreaks :=
  let today := startOfDay logDate
  match existing with
  | none =>
      -- First time logging mood - create new streak record
      { userId := userId
        currentStreak := 1
        longestStreak := 1
        lastLogDate := some today
        isActive := true
        currentStreakStartDate := some today
        longestStreakStartDate := some today
        longestStreakEndDate := some today }
  | some streakRecord =>
      match streakRecord.lastLogDate with
      | none =>
          -- Should not happen but handle it anyway
          { streakRecord with
              currentStreak := 1
              lastLogDate := some today
              isActive := true
              currentStreakStartDate := some today }
      | some last =>
          let lastLogDate := startOfDay last
          let daysDifference := differenceInCalendarDays today lastLogDate
          if daysDifference = 0 then
            -- Same day - no streak change, just update last log date
            { streakRecord with lastLogDate := some today }
          else if daysDifference = 1 then
            -- Next consecutive day - increment streak
            let s1 := { streakRecord with
                          currentStreak := streakRecord.currentStreak + 1
                          lastLogDate := some today
                          isActive := true }
            -- Update longest streak if current streak is now longer
            if s1.currentStreak > s1.longestStreak then
              { s1 with
                  longestStreak := s1.currentStreak
                  longestStreakStartDate := s1.currentStreakStartDate
                  longestStreakEndDate := some today }
            else s1
          else if daysDifference > 1 then
            -- Streak broken - reset streak to 1
            { streakRecord with
                currentStreak := 1
                lastLogDate := some today
                currentStreakStartDate := some today
                isActive := true }
          else streakRecord

/-- States reachable by the streak tracker: a first-ever log creates a
record, and every later log updates it through `updateUserStreak`. -/
inductive Reachable : MoodStreaks → Prop where
  | first (u : String) (d : Int) : Reachable (updateUserStreak u d none)
  | step (s : MoodStreaks) (u : String) (d : Int) :
      Reachable s → Reachable (updateUserStreak u d (some s))

/-- A mood-log row as consumed by the aggregation helpers: its timestamp and
the display attributes of the selected mood (`log.userMood.mood`). Other
columns of `mood_logs` play no part in grouping or summaries. -/
structure MoodLog where
  moodDate : Int
  moodName : String
  moodEmoji : String
  moodColour : String
deriving DecidableEq, Repr

structure HourGroup where
  hour : Nat
  logs : List MoodLog
  count : Nat
deriving DecidableEq, Repr

/-- `groupLogsByHour` (mood-log.controller.ts, lines 1023-1043): a JS object
keyed by the integers 0..23 is filled by pushing each log into the bucket of
its `getHours()`; `Object.values` enumerates integer keys in ascending
order, so the buckets come out as hours 0..23. Pushing in input order is the
same as filtering the input list per hour. -/
def groupLogsByHour (logs : List MoodLog) : List HourGroup :=
  (List.range 24).map (fun i =>
    let matching := logs.filter (fun log => getHours log.moodDate == i)
    { hour := i, logs := matching, count := matching.length })

def daysOfWeek : List String :=
  ["Sunday", "Monday", "Tuesday", "Wednesday", "Thursday", "Friday", "Saturday"]

structure DayGroup where
  day : String
  dayNumber : Nat
  logs : List MoodLog
  count : Nat
deriving DecidableEq, Repr

/-- The weekday slots initialized by the source loop
`for i in 0..6: (startDate.getDay() + i) % 7`. -/
def weekSlots (d : Nat) : List Nat := (List.range 7).map (fun i => (d + i) % 7)

/-- One weekday bucket: the logs whose `moodDate.getDay()` equals `day`,
pushed in input order. -/
def mkDayGroup (logs : List MoodLog) (day : Nat) : DayGroup :=
  let matching := logs.filter (fun log => getDay log.moodDate == day)
  { day := daysOfWeek.getD day "", dayNumber := day
    logs := matching, count := matching.length }

/-- `groupLogsByDay` (mood-log.controller.ts, lines 1048-1086): buckets are
created for the seven weekday slots starting at `startDate.getDay()`, logs
are pushed into the bucket of their weekday, and the result of
`Object.values(...)` is explicitly `.sort((a, b) => a.dayNumber - b.dayNumber)`-ed,
i.e. put into ascending `dayNumber` order. -/
def groupLogsByDay (logs : List MoodLog) (startDate : Int) : List DayGroup :=
  List.insertionSort (fun a b => a.dayNumber ≤ b.dayNumber)
    ((weekSlots (getDay startDate)).map (mkDayGroup logs))

structure DateGroup where
  date : Int
  dateObj : Int
  logs : List MoodLog
  count : Nat
deriving DecidableEq, Repr

/-- `groupLogsByDate` (mood-log.controller.ts, lines 1091-1127): one bucket
per calendar date from `startDate` for `differenceInCalendarDays(endDate,
startDate) + 1` days; each log joins the bucket whose key equals
`format(log.moodDate, 'yyyy-MM-dd')`, and logs whose date has no bucket are
dropped. The final `.sort` by `dateObj.getTime()` ascending keeps the
already-ascending construction order. The `date` field stands for the
`yyyy-MM-dd` key via its day number. -/
def groupLogsByDate (logs : List MoodLog) (startDate endDate : Int) : List DateGroup :=
  let numDays := (differenceInCalendarDays endDate startDate + 1).toNat
  List.insertionSort (fun a b => a.dateObj ≤ b.dateObj)
    ((List.range numDays).map (fun i : Nat =>
      let dateKey := dayNumber startDate + i
      let matching := logs.filter (fun log => dayNumber log.moodDate == dateKey)
      { date := dateKey, dateObj := startDate + 24 * i
        logs := matching, count := matching.length }))

inductive Period where
  | day
  | week
  | month
deriving DecidableEq, Repr

/-- The canonical bucket keys of a period: hours for `day`, weekday names
for `week`, `yyyy-MM-dd` date keys for `month`. -/
inductive Categories where
  | hours : List Nat → Categories
  | weekdays : List String → Categories
  | dates : List Int → Categories
deriving DecidableEq, Repr

/-- `getCategoriesForPeriod` (mood-log.controller.ts, lines 1132-1158). -/
def getCategoriesForPeriod (period : Period) (startDate endDate : Int) : Categories :=
  match period with
  | .day => .hours (List.range 24)
  | .week => .weekdays daysOfWeek
  | .month =>
      let numDays := (differenceInCalendarDays endDate startDate + 1).toNat
      .dates ((List.range numDays).map (fun i : Nat => dayNumber startDate + i))

structure MoodCount where
  count : Nat
  emoji : String
  color : String
  percentage : Nat
deriving DecidableEq, Repr

/-- One step of the `logs.forEach` loop of `getMoodSummary`: create the
entry on first sight of a mood name (then `count++` makes it 1), otherwise
increment the existing entry's count. Insertion order of a JS object with
string keys is first-appearance order, modelled as an association list. -/
def countMoodStep (acc : List (String × MoodCount)) (log : MoodLog) :
    List (String × MoodCount) :=
  if (acc.lookup log.moodName).isSome then
    acc.map (fun p =>
      (p.1, if p.1 = log.moodName then { p.2 with count := p.2.count + 1 } else p.2))
  else
    acc ++ [(log.moodName,
      { count := 1, emoji := log.moodEmoji, color := log.moodColour, percentage := 0 })]

def countMoods : List MoodLog → List (String × MoodCount) → List (String × MoodCount)
  | [], acc => acc
  | log :: rest, acc => countMoods rest (countMoodStep acc log)

/-- `Math.round(count / totalLogs * 100)` for nonnegative integers `count`
and positive `totalLogs`: round half up, i.e. `⌊100*count/total + 1/2⌋`. -/
def roundPercentage (count total : Nat) : Nat := (200 * count + total) / (2 * total)

structure MoodSummary where
  period : Period
  timeRange : Int × Int
  totalLogs : Nat
  moodCounts : List (String × MoodCount)
  categories : Categories
deriving DecidableEq, Repr

/-- The pure core of `getMoodSummary` (mood-log.controller.ts, lines
809-883), applied to the logs fetched for the window: counts per mood name,
then a percentage pass (`totalLogs > 0 ? Math.round(...) : 0`), with the
canonical category keys of the period. -/
def getMoodSummary (logs : List MoodLog) (period : Period)
    (startDate endDate : Int) : MoodSummary :=
  let counts := countMoods logs []
  let withPct := counts.map (fun p =>
    (p.1, { p.2 with percentage :=
      if logs.length > 0 then roundPercentage p.2.count logs.length else 0 }))
  { period := period
    timeRange := (startDate, endDate)
    totalLogs := logs.length
    moodCounts := withPct
    categories := getCategoriesForPeriod period startDate endDate }

/-! Basic day arithmetic lemmas. -/

theorem dayNumber_eq_ediv (t : Int) : dayNumber t = t / 24 :=
  Int.fdiv_eq_ediv t (by norm_num)

theorem dayNumber_mul (k : Int) : dayNumber (24 * k) = k := by
  rw [dayNumber_eq_ediv]; omega

theorem dayNumber_startOfDay (t : Int) : dayNumber (startOfDay t) = dayNumber t := by
  simp only [startOfDay, dayNumber_eq_ediv]; omega

theorem startOfDay_idem (t : Int) : startOfDay (startOfDay t) = startOfDay t := by
  simp only [startOfDay, dayNumber_mul]

theorem dayNumber_add_day (t : Int) : dayNumber (t + 24) = dayNumber t + 1 := by
  simp only [dayNumber_eq_ediv]; omega

/-! Branch characterizations of `updateUserStreak`. -/

theorem updateUserStreak_first (u : String) (d : Int) :
    updateUserStreak u d none =
      { userId := u, currentStreak := 1, longestStreak := 1
        lastLogDate := some (startOfDay d), isActive := true
        currentStreakStartDate := some (startOfDay d)
        longestStreakStartDate := some (startOfDay d)
        longestStreakEndDate := some (startOfDay d) } := rfl

theorem updateUserStreak_noLast (u : String) (d : Int) (s : MoodStreaks)
    (h : s.lastLogDate = none) :
    updateUserStreak u d (some s) =
      { s with currentStreak := 1, lastLogDate := some (startOfDay d)
               isActive := true, currentStreakStartDate := some (startOfDay d) } := by
  simp [updateUserStreak, h]

theorem updateUserStreak_sameDay (u : String) (d : Int) (s : MoodStreaks) (l : Int)
    (h : s.lastLogDate = some l)
    (hd : differenceInCalendarDays (startOfDay d) (startOfDay l) = 0) :
    updateUserStreak u d (some s) = { s with lastLogDate := some (startOfDay d) } := by
  simp [updateUserStreak, h, hd]

theorem updateUserStreak_gapOne (u : String) (d : Int) (s : MoodStreaks) (l : Int)
    (h : s.lastLogDate = some l)
    (hd : differenceInCalendarDays (startOfDay d) (startOfDay l) = 1) :
    updateUserStreak u d (some s) =
      if s.currentStreak + 1 > s.longestStreak then
        { s with currentStreak := s.currentStreak + 1
                 lastLogDate := some (startOfDay d), isActive := true
                 longestStreak := s.currentStreak + 1
                 longestStreakStartDate := s.currentStreakStartDate
                 longestStreakEndDate := some (startOfDay d) }
      else
        { s with currentStreak := s.currentStreak + 1
                 lastLogDate := some (startOfDay d), isActive := true } := by
  simp only [updateUserStreak, h, hd]
  norm_num

theorem updateUserStreak_gapBig (u : String) (d : Int) (s : MoodStreaks) (l : Int)
    (h : s.lastLogDate = some l)
    (hd : 1 < differenceInCalendarDays (startOfDay d) (startOfDay l)) :
    updateUserStreak u d (some s) =
      { s with currentStreak := 1, lastLogDate := some (startOfDay d)
               currentStreakStartDate := some (startOfDay d), isActive := true } := by
  have h0 : ¬ differenceInCalendarDays (startOfDay d) (startOfDay l) = 0 := by omega
  have h1 : ¬ differenceInCalendarDays (startOfDay d) (startOfDay l) = 1 := by omega
  simp [updateUserStreak, h, h0, h1, hd]

theorem updateUserStreak_negGap (u : String) (d : Int) (s : MoodStreaks) (l : Int)
    (h : s.lastLogDate = some l)
    (hd : differenceInCalendarDays (startOfDay d) (startOfDay l) < 0) :
    updateUserStreak u d (some s) = s := by
  have h0 : ¬ differenceInCalendarDays (startOfDay d) (startOfDay l) = 0 := by omega
  have h1 : ¬ differenceInCalendarDays (startOfDay d) (startOfDay l) = 1 := by omega
  have h2 : ¬ 1 < differenceInCalendarDays (startOfDay d) (startOfDay l) := by omega
  simp [updateUserStreak, h, h0, h1, h2]

theorem diff_startOfDay (d l : Int) :
    differenceInCalendarDays (startOfDay d) (startOfDay l) = dayNumber d - dayNumber l := by
  simp [differenceInCalendarDays, dayNumber_startOfDay]

/-- Inductive invariant of the streak tracker: every reachable record has a
positive current streak bounded by the longest streak, `isActive` set, a
day-aligned `lastLogDate`, and a current-streak start no later than the last
log. -/
theorem reachable_inv (s : MoodStreaks) (hs : Reachable s) :
    1 ≤ s.currentStreak ∧ s.currentStreak ≤ s.longestStreak ∧ s.isActive = true ∧
    ∃ l c, s.lastLogDate = some l ∧ s.currentStreakStartDate = some c ∧
      startOfDay l = l ∧ c ≤ l := by
  induction hs with
  | first u d =>
      rw [updateUserStreak_first u d]
      exact ⟨by norm_num, by norm_num, rfl,
        startOfDay d, startOfDay d, rfl, rfl, startOfDay_idem d, le_refl _⟩
  | step s u d hs ih =>
      obtain ⟨h1, h2, h3, l, c, hl, hc, hal, hcl⟩ := ih
      rcases lt_trichotomy (differenceInCalendarDays (startOfDay d) (startOfDay l)) 0
        with hneg | hzero | hpos
      · rw [updateUserStreak_negGap u d s l hl hneg]
        exact ⟨h1, h2, h3, l, c, hl, hc, hal, hcl⟩
      · have hdn : dayNumber d = dayNumber l := by
          rw [diff_startOfDay] at hzero; omega
        have hsd : startOfDay d = l := by
          rw [startOfDay, hdn]; exact hal
        rw [updateUserStreak_sameDay u d s l hl hzero]
        exact ⟨h1, h2, h3, startOfDay d, c, rfl, hc, startOfDay_idem d, hsd ▸ hcl⟩
      · by_cases hone : differenceInCalendarDays (startOfDay d) (startOfDay l) = 1
        · have hdn : dayNumber d = dayNumber l + 1 := by
            rw [diff_startOfDay] at hone; omega
          have hsd : startOfDay d = l + 24 := by
            rw [startOfDay, hdn, mul_add, mul_one]
            rw [show 24 * dayNumber l = startOfDay l from rfl, hal]
          have hcd : c ≤ startOfDay d := by omega
          rw [updateUserStreak_gapOne u d s l hl hone]
          by_cases hcg : s.currentStreak + 1 > s.longestStreak
          · rw [if_pos hcg]
            exact ⟨by show 1 ≤ s.currentStreak + 1; omega, le_refl _, rfl,
              startOfDay d, c, rfl, hc, startOfDay_idem d, hcd⟩
          · rw [if_neg hcg]
            exact ⟨by show 1 ≤ s.currentStreak + 1; omega,
              by show s.currentStreak + 1 ≤ s.longestStreak; omega, rfl,
              startOfDay d, c, rfl, hc, startOfDay_idem d, hcd⟩
        · have hbig : 1 < differenceInCalendarDays (startOfDay d) (startOfDay l) := by
            omega
          rw [updateUserStreak_gapBig u d s l hl hbig]
          exact ⟨le_refl _, by show (1 : Int) ≤ s.longestStreak; omega, rfl,
            startOfDay d, startOfDay d, rfl, rfl, startOfDay_idem d, le_refl _⟩

/-- Every update path either sets `isActive := true` or returns it
unchanged. -/
theorem updateUserStreak_isActive_mono (u : String) (d : Int) (s : MoodStreaks)
    (h : s.isActive = true) : (updateUserStreak u d (some s)).isActive = true := by
  cases hl : s.lastLogDate with
  | none => rw [updateUserStreak_noLast u d s hl]
  | some l =>
      rcases lt_trichotomy (differenceInCalendarDays (startOfDay d) (startOfDay l)) 0
        with hneg | hzero | hpos
      · rw [updateUserStreak_negGap u d s l hl hneg]; exact h
      · rw [updateUserStreak_sameDay u d s l hl hzero]; exact h
      · by_cases hone : differenceInCalendarDays (startOfDay d) (startOfDay l) = 1
        · rw [updateUserStreak_gapOne u d s l hl hone]
          by_cases hcg : s.currentStreak + 1 > s.longestStreak
          · rw [if_pos hcg]
          · rw [if_neg hcg]
        · have hbig : 1 < differenceInCalendarDays (startOfDay d) (startOfDay l) := by
            omega
          rw [updateUserStreak_gapBig u d s l hl hbig]

theorem updateUserStreak_gapOne_new (u : String) (d : Int) (s : MoodStreaks) (l : Int)
    (h : s.lastLogDate = some l)
    (hd : differenceInCalendarDays (startOfDay d) (startOfDay l) = 1)
    (hc : s.longestStreak < s.currentStreak + 1) :
    updateUserStreak u d (some s) =
      { s with currentStreak := s.currentStreak + 1
               lastLogDate := some (startOfDay d), isActive := true
               longestStreak := s.currentStreak + 1
               longestStreakStartDate := s.currentStreakStartDate
               longestStreakEndDate := some (startOfDay d) } := by
  rw [updateUserStreak_gapOne u d s l h hd, if_pos hc]

theorem updateUserStreak_gapOne_keep (u : String) (d : Int) (s : MoodStreaks) (l : Int)
    (h : s.lastLogDate = some l)
    (hd : differenceInCalendarDays (startOfDay d) (startOfDay l) = 1)
    (hc : ¬ s.longestStreak < s.currentStreak + 1) :
    updateUserStreak u d (some s) =
      { s with currentStreak := s.currentStreak + 1
               lastLogDate := some (startOfDay d), isActive := true } := by
  rw [updateUserStreak_gapOne u d s l h hd, if_neg hc]

theorem diff_hours (x y : Int) :
    differenceInCalendarDays (startOfDay x) (startOfDay (startOfDay y)) =
      dayNumber x - dayNumber y := by
  simp [differenceInCalendarDays, dayNumber_startOfDay]

/-- C4: when no streak record exists (first-ever log), the update with log
date `d` yields `currentStreak = 1`, `longestStreak = 1`, `isActive = true`,
and all four dates equal to the calendar day of `d`. -/
theorem claim_C4 (u : String) (d : Int) :
    (updateUserStreak u d none).currentStreak = 1 ∧
    (updateUserStreak u d none).longestStreak = 1 ∧
    (updateUserStreak u d none).isActive = true ∧
    (updateUserStreak u d none).lastLogDate = some (startOfDay d) ∧
    (updateUserStreak u d none).currentStreakStartDate = some (startOfDay d) ∧
    (updateUserStreak u d none).longestStreakStartDate = some (startOfDay d) ∧
    (updateUserStreak u d none).longestStreakEndDate = some (startOfDay d) :=
  ⟨rfl, rfl, rfl, rfl, rfl, rfl, rfl⟩

/-- C10: when the log's calendar day is strictly before the stored
`lastLogDate`'s day (negative gap), no branch of the update fires and the
record is returned with every field exactly unchanged: a full no-op. -/
theorem claim_C10 (u : String) (d : Int) (s : MoodStreaks) (l : Int)
    (h : s.lastLogDate = some l)
    (hd : differenceInCalendarDays (startOfDay d) (startOfDay l) < 0) :
    updateUserStreak u d (some s) = s :=
  updateUserStreak_negGap u d s l h hd

/-- C10 witness: a log on day 0 against a record whose last log was day 1
leaves the record untouched. -/
theorem claim_C10_witness :
    updateUserStreak "u" 0 (some ⟨"u", 3, 3, some 24, true, some 0, some 0, some 48⟩) =
      ⟨"u", 3, 3, some 24, true, some 0, some 0, some 48⟩ :=
  claim_C10 "u" 0 ⟨"u", 3, 3, some 24, true, some 0, some 0, some 48⟩ 24 rfl (by decide)

/-- C6 counterexample: with `lastLogDate` absent but `longestStreak = 5`, the
update leaves `longestStreak` at 5, so the result is not identical to the
first-ever-log result (whose `longestStreak` is 1). -/
theorem claim_C6_counterexample :
    updateUserStreak "u" 0 (some ⟨"u", 3, 5, none, false, none, some 7, some 8⟩) ≠
      updateUserStreak "u" 0 none ∧
    (updateUserStreak "u" 0 (some ⟨"u", 3, 5, none, false, none, some 7, some 8⟩)).longestStreak = 5 := by
  decide

/-- C6 amended: when the stored record's `lastLogDate` is absent, the update
sets `currentStreak = 1`, `lastLogDate` and `currentStreakStartDate` to the
log's calendar day and `isActive = true`, leaving `longestStreak`,
`longestStreakStartDate` and `longestStreakEndDate` unchanged (it does not
rebuild the full first-ever-log record). -/
theorem claim_C6_amended (u : String) (d : Int) (s : MoodStreaks)
    (h : s.lastLogDate = none) :
    updateUserStreak u d (some s) =
      { s with currentStreak := 1, lastLogDate := some (startOfDay d)
               isActive := true, currentStreakStartDate := some (startOfDay d) } ∧
    (updateUserStreak u d (some s)).longestStreak = s.longestStreak ∧
    (updateUserStreak u d (some s)).longestStreakStartDate = s.longestStreakStartDate ∧
    (updateUserStreak u d (some s)).longestStreakEndDate = s.longestStreakEndDate := by
  rw [updateUserStreak_noLast u d s h]
  exact ⟨rfl, rfl, rfl, rfl⟩

/-- C6 amended witness: concrete corrupt record with `lastLogDate = none`. -/
theorem claim_C6_amended_witness :
    updateUserStreak "u" 0 (some ⟨"u", 3, 5, none, false, none, some 7, some 8⟩) =
      ⟨"u", 1, 5, some 0, true, some 0, some 7, some 8⟩ :=
  (claim_C6_amended "u" 0 ⟨"u", 3, 5, none, false, none, some 7, some 8⟩ rfl).1

/-- C7 counterexample: a same-day update on a record with `isActive = false`
returns `isActive = false` — the same-day path does not set the flag, so not
every update path establishes `isActive = true` for arbitrary prior states. -/
theorem claim_C7_counterexample :
    (updateUserStreak "u" 0 (some ⟨"u", 2, 3, some 0, false, some 0, some 0, some 0⟩)).isActive = false := by
  decide

/-- C7 amended: the first-log path sets `isActive = true`, every update on an
existing record sets it or leaves it unchanged, and hence every state
reachable from a first-ever log has `isActive = true`; no reachable state
ever has it false. -/
theorem claim_C7_amended :
    (∀ (u : String) (d : Int), (updateUserStreak u d none).isActive = true) ∧
    (∀ (s : MoodStreaks) (u : String) (d : Int), s.isActive = true →
      (updateUserStreak u d (some s)).isActive = true) ∧
    (∀ s : MoodStreaks, Reachable s → s.isActive = true) :=
  ⟨fun _ _ => rfl, fun s u d h => updateUserStreak_isActive_mono u d s h,
   fun s hs => (reachable_inv s hs).2.2.1⟩

/-- C7 amended witness: after a first log on day 0 and a second log on day 1
the record is active. -/
theorem claim_C7_amended_witness :
    (updateUserStreak "u" 24 (some (updateUserStreak "u" 0 none))).isActive = true :=
  claim_C7_amended.2.2 _ (Reachable.step _ "u" 24 (Reachable.first "u" 0))

/-- C2 counterexample: the update is not invariant-establishing for
arbitrary prior states: a same-day update on a (non-reachable) record with
`currentStreak = 5 > longestStreak = 0` returns it still violating
`longestStreak >= currentStreak`. -/
theorem claim_C2_counterexample :
    ¬ ((updateUserStreak "u" 0 (some ⟨"u", 5, 0, some 0, true, some 0, some 0, some 0⟩)).currentStreak ≤
       (updateUserStreak "u" 0 (some ⟨"u", 5, 0, some 0, true, some 0, some 0, some 0⟩)).longestStreak) := by
  decide

/-- C2 amended: the predicate `longestStreak >= currentStreak` and
`currentStreakStartDate <= lastLogDate` is an invariant of every state
reachable from a first-ever log via streak updates (it need not hold after
one update on an arbitrary, corrupt prior state). -/
theorem claim_C2_amended (s : MoodStreaks) (hs : Reachable s) :
    s.currentStreak ≤ s.longestStreak ∧
    ∃ l c, s.lastLogDate = some l ∧ s.currentStreakStartDate = some c ∧ c ≤ l := by
  obtain ⟨_, h2, _, l, c, hl, hc, _, hcl⟩ := reachable_inv s hs
  exact ⟨h2, l, c, hl, hc, hcl⟩

/-- C2 amended witness: the invariant at the first-ever-log state on day 0. -/
theorem claim_C2_amended_witness :
    (updateUserStreak "u" 0 none).currentStreak ≤ (updateUserStreak "u" 0 none).longestStreak ∧
    ∃ l c, (updateUserStreak "u" 0 none).lastLogDate = some l ∧
      (updateUserStreak "u" 0 none).currentStreakStartDate = some c ∧ c ≤ l :=
  claim_C2_amended _ (Reachable.first "u" 0)

/-- C1: on a gap of exactly one calendar day the update increments
`currentStreak`, sets `lastLogDate` to the log's day and `isActive` to true,
and updates the longest-streak fields exactly when the new `currentStreak`
exceeds `longestStreak`; three first-ever logs on consecutive days yield
`currentStreak = 3`, `longestStreak = 3` ending on the third day. -/
theorem claim_C1 :
    (∀ (u : String) (d : Int) (s : MoodStreaks) (l : Int),
      s.lastLogDate = some l →
      differenceInCalendarDays (startOfDay d) (startOfDay l) = 1 →
      (updateUserStreak u d (some s)).currentStreak = s.currentStreak + 1 ∧
      (updateUserStreak u d (some s)).lastLogDate = some (startOfDay d) ∧
      (updateUserStreak u d (some s)).isActive = true ∧
      (s.currentStreak + 1 > s.longestStreak →
        (updateUserStreak u d (some s)).longestStreak = s.currentStreak + 1 ∧
        (updateUserStreak u d (some s)).longestStreakStartDate = s.currentStreakStartDate ∧
        (updateUserStreak u d (some s)).longestStreakEndDate = some (startOfDay d)) ∧
      (¬ s.currentStreak + 1 > s.longestStreak →
        (updateUserStreak u d (some s)).longestStreak = s.longestStreak ∧
        (updateUserStreak u d (some s)).longestStreakStartDate = s.longestStreakStartDate ∧
        (updateUserStreak u d (some s)).longestStreakEndDate = s.longestStreakEndDate)) ∧
    (∀ (u : String) (d0 : Int),
      (updateUserStreak u (d0 + 48) (some (updateUserStreak u (d0 + 24)
          (some (updateUserStreak u d0 none))))).currentStreak = 3 ∧
      (updateUserStreak u (d0 + 48) (some (updateUserStreak u (d0 + 24)
          (some (updateUserStreak u d0 none))))).longestStreak = 3 ∧
      (updateUserStreak u (d0 + 48) (some (updateUserStreak u (d0 + 24)
          (some (updateUserStreak u d0 none))))).longestStreakEndDate =
        some (startOfDay (d0 + 48))) := by
  constructor
  · intro u d s l h hd
    rw [updateUserStreak_gapOne u d s l h hd]
    by_cases hc : s.currentStreak + 1 > s.longestStreak
    · rw [if_pos hc]
      exact ⟨rfl, rfl, rfl, fun _ => ⟨rfl, rfl, rfl⟩, fun hn => absurd hc hn⟩
    · rw [if_neg hc]
      exact ⟨rfl, rfl, rfl, fun hp => absurd hp hc, fun _ => ⟨rfl, rfl, rfl⟩⟩
  · intro u d0
    have hd1 : differenceInCalendarDays (startOfDay (d0 + 24))
        (startOfDay (startOfDay d0)) = 1 := by
      rw [diff_hours]; simp only [dayNumber_eq_ediv]; omega
    have hd2 : differenceInCalendarDays (startOfDay (d0 + 48))
        (startOfDay (startOfDay (d0 + 24))) = 1 := by
      rw [diff_hours]; simp only [dayNumber_eq_ediv]; omega
    have e1 : updateUserStreak u d0 none =
        ⟨u, 1, 1, some (startOfDay d0), true, some (startOfDay d0),
         some (startOfDay d0), some (startOfDay d0)⟩ := updateUserStreak_first u d0
    have e2 : updateUserStreak u (d0 + 24) (some (updateUserStreak u d0 none)) =
        ⟨u, 2, 2, some (startOfDay (d0 + 24)), true, some (startOfDay d0),
         some (startOfDay d0), some (startOfDay (d0 + 24))⟩ := by
      rw [e1, updateUserStreak_gapOne_new u (d0 + 24) _ (startOfDay d0) rfl hd1
        (by show (1 : Int) < 1 + 1; norm_num)]
      rfl
    have e3 : updateUserStreak u (d0 + 48) (some (updateUserStreak u (d0 + 24)
        (some (updateUserStreak u d0 none)))) =
        ⟨u, 3, 3, some (startOfDay (d0 + 48)), true, some (startOfDay d0),
         some (startOfDay d0), some (startOfDay (d0 + 48))⟩ := by
      rw [e2, updateUserStreak_gapOne_new u (d0 + 48) _ (startOfDay (d0 + 24)) rfl hd2
        (by show (2 : Int) < 2 + 1; norm_num)]
      rfl
    rw [e3]
    exact ⟨rfl, rfl, rfl⟩

/-- C1 witness: at `u = "u"`, `d0 = 0`, a concrete gap-one step and the
three-consecutive-day scenario. -/
theorem claim_C1_witness :
    ((updateUserStreak "u" 24 (some ⟨"u", 1, 1, some 0, true, some 0, some 0, some 0⟩)).currentStreak = 1 + 1 ∧
     (updateUserStreak "u" 48 (some (updateUserStreak "u" 24
         (some (updateUserStreak "u" 0 none))))).currentStreak = 3) := by
  refine ⟨(claim_C1.1 "u" 24 ⟨"u", 1, 1, some 0, true, some 0, some 0, some 0⟩ 0 rfl (by decide)).1, ?_⟩
  have h := (claim_C1.2 "u" 0).1
  norm_num at h
  exact h

/-- C5: on a gap greater than one day the update resets `currentStreak` to 1,
moves `lastLogDate` and `currentStreakStartDate` to the log's day and sets
`isActive = true`, leaving the three longest-streak fields exactly
unchanged; after streaks on days 1,2,3, a log on day 10 and one on day 11,
`longestStreak` stays 3 with its original date range and `currentStreak = 2`. -/
theorem claim_C5 :
    (∀ (u : String) (d : Int) (s : MoodStreaks) (l : Int),
      s.lastLogDate = some l →
      1 < differenceInCalendarDays (startOfDay d) (startOfDay l) →
      updateUserStreak u d (some s) =
        { s with currentStreak := 1, lastLogDate := some (startOfDay d)
                 currentStreakStartDate := some (startOfDay d), isActive := true } ∧
      (updateUserStreak u d (some s)).longestStreak = s.longestStreak ∧
      (updateUserStreak u d (some s)).longestStreakStartDate = s.longestStreakStartDate ∧
      (updateUserStreak u d (some s)).longestStreakEndDate = s.longestStreakEndDate) ∧
    (∀ (u : String) (d0 : Int),
      updateUserStreak u (d0 + 240) (some (updateUserStreak u (d0 + 216)
        (some (updateUserStreak u (d0 + 48) (some (updateUserStreak u (d0 + 24)
          (some (updateUserStreak u d0 none)))))))) =
      ⟨u, 2, 3, some (startOfDay (d0 + 240)), true, some (startOfDay (d0 + 216)),
       some (startOfDay d0), some (startOfDay (d0 + 48))⟩) := by
  constructor
  · intro u d s l h hd
    rw [updateUserStreak_gapBig u d s l h hd]
    exact ⟨rfl, rfl, rfl, rfl⟩
  · intro u d0
    have hd1 : differenceInCalendarDays (startOfDay (d0 + 24))
        (startOfDay (startOfDay d0)) = 1 := by
      rw [diff_hours]; simp only [dayNumber_eq_ediv]; omega
    have hd2 : differenceInCalendarDays (startOfDay (d0 + 48))
        (startOfDay (startOfDay (d0 + 24))) = 1 := by
      rw [diff_hours]; simp only [dayNumber_eq_ediv]; omega
    have hd3 : 1 < differenceInCalendarDays (startOfDay (d0 + 216))
        (startOfDay (startOfDay (d0 + 48))) := by
      rw [diff_hours]; simp only [dayNumber_eq_ediv]; omega
    have hd4 : differenceInCalendarDays (startOfDay (d0 + 240))
        (startOfDay (startOfDay (d0 + 216))) = 1 := by
      rw [diff_hours]; simp only [dayNumber_eq_ediv]; omega
    have e1 : updateUserStreak u d0 none =
        ⟨u, 1, 1, some (startOfDay d0), true, some (startOfDay d0),
         some (startOfDay d0), some (startOfDay d0)⟩ := updateUserStreak_first u d0
    have e2 : updateUserStreak u (d0 + 24) (some (updateUserStreak u d0 none)) =
        ⟨u, 2, 2, some (startOfDay (d0 + 24)), true, some (startOfDay d0),
         some (startOfDay d0), some (startOfDay (d0 + 24))⟩ := by
      rw [e1, updateUserStreak_gapOne_new u (d0 + 24) _ (startOfDay d0) rfl hd1
        (by show (1 : Int) < 1 + 1; norm_num)]
      rfl
    have e3 : updateUserStreak u (d0 + 48) (some (updateUserStreak u (d0 + 24)
        (some (updateUserStreak u d0 none)))) =
        ⟨u, 3, 3, some (startOfDay (d0 + 48)), true, some (startOfDay d0),
         some (startOfDay d0), some (startOfDay (d0 + 48))⟩ := by
      rw [e2, updateUserStreak_gapOne_new u (d0 + 48) _ (startOfDay (d0 + 24)) rfl hd2
        (by show (2 : Int) < 2 + 1; norm_num)]
      rfl
    have e4 : updateUserStreak u (d0 + 216) (some (updateUserStreak u (d0 + 48)
        (some (updateUserStreak u (d0 + 24) (some (updateUserStreak u d0 none)))))) =
        ⟨u, 1, 3, some (startOfDay (d0 + 216)), true, some (startOfDay (d0 + 216)),
         some (startOfDay d0), some (startOfDay (d0 + 48))⟩ := by
      rw [e3, updateUserStreak_gapBig u (d0 + 216) _ (startOfDay (d0 + 48)) rfl hd3]
    rw [e4, updateUserStreak_gapOne_keep u (d0 + 240) _ (startOfDay (d0 + 216)) rfl hd4
      (by show ¬ (3 : Int) < 1 + 1; norm_num)]
    rfl

/-- C5 witness: at `u = "u"`, `d0 = 0`, a concrete broken-streak step and the
1,2,3,10,11 scenario. -/
theorem claim_C5_witness :
    (updateUserStreak "u" 240 (some ⟨"u", 3, 3, some 48, true, some 0, some 0, some 48⟩) =
      ⟨"u", 1, 3, some 240, true, some 240, some 0, some 48⟩) ∧
    updateUserStreak "u" 240 (some (updateUserStreak "u" 216
      (some (updateUserStreak "u" 48 (some (updateUserStreak "u" 24
        (some (updateUserStreak "u" 0 none)))))))) =
      ⟨"u", 2, 3, some 240, true, some 216, some 0, some 48⟩ := by
  constructor
  · exact (claim_C5.1 "u" 240 ⟨"u", 3, 3, some 48, true, some 0, some 0, some 48⟩ 48 rfl (by decide)).1
  · have h := claim_C5.2 "u" 0
    norm_num at h
    exact h

theorem getDay_lt_7 (t : Int) : getDay t < 7 := by
  simp only [getDay]
  omega

/-- For any start weekday `d < 7`, sorting the seven wrap-around slots by
`dayNumber` yields the weekdays 0..6 in ascending order. -/
theorem weekSlots_sorted (logs : List MoodLog) (d : Nat) (hd : d < 7) :
    List.insertionSort (fun a b => a.dayNumber ≤ b.dayNumber)
      ((weekSlots d).map (mkDayGroup logs)) =
    (List.range 7).map (mkDayGroup logs) := by
  interval_cases d <;> rfl

theorem groupLogsByDay_eq (logs : List MoodLog) (startDate : Int) :
    groupLogsByDay logs startDate = (List.range 7).map (mkDayGroup logs) :=
  weekSlots_sorted logs (getDay startDate) (getDay_lt_7 startDate)

/-- C3 counterexample: for a window starting on a Monday (`getDay = 1`), the
buckets come back in ascending weekday order Sunday..Saturday — not starting
at the window's start weekday and wrapping as the claim states. -/
theorem claim_C3_counterexample :
    getDay 96 = 1 ∧
    (groupLogsByDay [] 96).map (fun g => g.dayNumber) ≠ weekSlots (getDay 96) := by
  decide

/-- C3 amended: the week bucketing returns exactly 7 buckets, one per
weekday name, each present even when empty, each log placed in the bucket of
its `moodDate`'s weekday regardless of calendar date — but the buckets are
returned in ascending weekday-number order (Sunday through Saturday),
independent of `startDate`'s weekday, because the source sorts by
`dayNumber` after building the wrap-around slots. -/
theorem claim_C3_amended (logs : List MoodLog) (startDate : Int) :
    (groupLogsByDay logs startDate).length = 7 ∧
    (groupLogsByDay logs startDate).map (fun g => g.dayNumber) = [0, 1, 2, 3, 4, 5, 6] ∧
    (groupLogsByDay logs startDate).map (fun g => g.day) = daysOfWeek ∧
    ∀ g ∈ groupLogsByDay logs startDate,
      g.logs = logs.filter (fun log => getDay log.moodDate == g.dayNumber) ∧
      g.count = g.logs.length := by
  rw [groupLogsByDay_eq logs startDate]
  refine ⟨rfl, rfl, rfl, ?_⟩
  intro g hg
  rcases List.mem_map.mp hg with ⟨k, _, rfl⟩
  exact ⟨rfl, rfl⟩

/-- C3 amended witness: one log on a Wednesday, window starting Monday
(day 96): the Wednesday bucket holds it, every bucket satisfies the filter
characterization. -/
theorem claim_C3_amended_witness :
    ((groupLogsByDay [⟨144, "happy", "e", "c"⟩] 96).map (fun g => g.dayNumber) =
      [0, 1, 2, 3, 4, 5, 6]) ∧
    (⟨"Wednesday", 3, [⟨144, "happy", "e", "c"⟩], 1⟩ : DayGroup).logs =
      [⟨144, "happy", "e", "c"⟩].filter (fun log => getDay log.moodDate ==
        (⟨"Wednesday", 3, [⟨144, "happy", "e", "c"⟩], 1⟩ : DayGroup).dayNumber) ∧
    (⟨"Wednesday", 3, [⟨144, "happy", "e", "c"⟩], 1⟩ : DayGroup).count =
      (⟨"Wednesday", 3, [⟨144, "happy", "e", "c"⟩], 1⟩ : DayGroup).logs.length :=
  ⟨(claim_C3_amended [⟨144, "happy", "e", "c"⟩] 96).2.1,
   ((claim_C3_amended [⟨144, "happy", "e", "c"⟩] 96).2.2.2
     ⟨"Wednesday", 3, [⟨144, "happy", "e", "c"⟩], 1⟩ (by decide)).1,
   ((claim_C3_amended [⟨144, "happy", "e", "c"⟩] 96).2.2.2
     ⟨"Wednesday", 3, [⟨144, "happy", "e", "c"⟩], 1⟩ (by decide)).2⟩

/-- The final sort of `groupLogsByDate` is a no-op: the buckets are built in
ascending `dateObj` order. -/
theorem groupLogsByDate_eq (logs : List MoodLog) (s e : Int) :
    groupLogsByDate logs s e =
      (List.range (differenceInCalendarDays e s + 1).toNat).map (fun i =>
        { date := dayNumber s + i, dateObj := s + 24 * i
          logs := logs.filter (fun log => dayNumber log.moodDate == dayNumber s + i)
          count := (logs.filter (fun log => dayNumber log.moodDate == dayNumber s + i)).length }) := by
  unfold groupLogsByDate
  have h : List.Sorted (fun a b : DateGroup => a.dateObj ≤ b.dateObj)
      ((List.range (differenceInCalendarDays e s + 1).toNat).map (fun i : Nat =>
        { date := dayNumber s + i, dateObj := s + 24 * i
          logs := logs.filter (fun log => dayNumber log.moodDate == dayNumber s + i)
          count := (logs.filter (fun log => dayNumber log.moodDate == dayNumber s + i)).length })) := by
    show List.Pairwise _ _
    rw [List.pairwise_map]
    apply List.Pairwise.imp ?_ (List.pairwise_lt_range _)
    intro i j hij
    show s + 24 * (i : Int) ≤ s + 24 * (j : Int)
    omega
  exact h.insertionSort_eq

/-- C8: hour bucketing yields 24 buckets keyed 0..23 ascending, each hour
present even when empty, holding the logs of that hour; date bucketing over
a window of nonnegative day span yields `dayDifference + 1` buckets, one per
calendar date from start to end inclusive, in ascending date order, each
present even when empty, holding the logs of that date. -/
theorem claim_C8 :
    (∀ logs : List MoodLog,
      (groupLogsByHour logs).length = 24 ∧
      (groupLogsByHour logs).map (fun g => g.hour) = List.range 24 ∧
      ∀ g ∈ groupLogsByHour logs,
        g.logs = logs.filter (fun log => getHours log.moodDate == g.hour) ∧
        g.count = g.logs.length) ∧
    (∀ (logs : List MoodLog) (startDate endDate : Int),
      dayNumber startDate ≤ dayNumber endDate →
      ((groupLogsByDate logs startDate endDate).length : Int) =
        differenceInCalendarDays endDate startDate + 1 ∧
      (groupLogsByDate logs startDate endDate).map (fun g => g.date) =
        (List.range (differenceInCalendarDays endDate startDate + 1).toNat).map
          (fun i : Nat => dayNumber startDate + (i : Int)) ∧
      List.Pairwise (fun a b => a < b)
        ((groupLogsByDate logs startDate endDate).map (fun g => g.date)) ∧
      ∀ g ∈ groupLogsByDate logs startDate endDate,
        g.logs = logs.filter (fun log => dayNumber log.moodDate == g.date) ∧
        g.count = g.logs.length) := by
  constructor
  · intro logs
    refine ⟨rfl, rfl, ?_⟩
    intro g hg
    rcases List.mem_map.mp hg with ⟨k, _, rfl⟩
    exact ⟨rfl, rfl⟩
  · intro logs startDate endDate hse
    have hnn : 0 ≤ differenceInCalendarDays endDate startDate + 1 := by
      simp only [differenceInCalendarDays]; omega
    rw [groupLogsByDate_eq]
    refine ⟨?_, ?_, ?_, ?_⟩
    · simp [Int.toNat_of_nonneg hnn]
    · rw [List.map_map]
      rfl
    · rw [List.map_map, List.pairwise_map]
      apply List.Pairwise.imp ?_ (List.pairwise_lt_range _)
      intro i j hij
      show dayNumber startDate + (i : Int) < dayNumber startDate + (j : Int)
      omega
    · intro g hg
      rcases List.mem_map.mp hg with ⟨k, _, rfl⟩
      exact ⟨rfl, rfl⟩

/-- C8 witness: one log at hour 6 of day 1 with a three-day window. -/
theorem claim_C8_witness :
    ((groupLogsByHour [⟨30, "m", "e", "c"⟩]).length = 24) ∧
    ((groupLogsByDate [⟨30, "m", "e", "c"⟩] 0 48).length : Int) =
      differenceInCalendarDays 48 0 + 1 :=
  ⟨(claim_C8.1 [⟨30, "m", "e", "c"⟩]).1,
   (claim_C8.2 [⟨30, "m", "e", "c"⟩] 0 48 (by decide)).1⟩

/-- Looking up a key after mapping the values of an association list applies
the value transformation at that key. -/
theorem lookup_map_keyed {β : Type} (l : List (String × β)) (a : String)
    (h : String → β → β) :
    (l.map (fun p => (p.1, h p.1 p.2))).lookup a = (l.lookup a).map (h a) := by
  induction l with
  | nil => rfl
  | cons p rest ih =>
      obtain ⟨k, v⟩ := p
      simp only [List.map_cons, List.lookup_cons]
      cases hak : a == k with
      | true =>
          have : a = k := by simpa using hak
          subst this
          rfl
      | false => simpa using ih

/-- One `forEach` step of the mood-count loop, seen through `lookup`/count. -/
theorem countMoodStep_lookup_count (acc : List (String × MoodCount)) (log : MoodLog)
    (nm : String) :
    ((countMoodStep acc log).lookup nm).map (fun mc => mc.count) =
      if nm = log.moodName then
        match (acc.lookup nm).map (fun mc => mc.count) with
        | some c => some (c + 1)
        | none => some 1
      else (acc.lookup nm).map (fun mc => mc.count) := by
  unfold countMoodStep
  by_cases hp : (acc.lookup log.moodName).isSome = true
  · rw [if_pos hp, lookup_map_keyed acc nm
      (fun k mc => if k = log.moodName then { mc with count := mc.count + 1 } else mc)]
    by_cases h : nm = log.moodName
    · rw [if_pos h]
      subst h
      obtain ⟨v, hv⟩ := Option.isSome_iff_exists.mp hp
      rw [hv]
      simp
    · rw [if_neg h]
      cases acc.lookup nm with
      | none => rfl
      | some v => simp [h]
  · rw [if_neg hp, List.lookup_append]
    have hnone : acc.lookup log.moodName = none := Option.not_isSome_iff_eq_none.mp hp
    by_cases h : nm = log.moodName
    · subst h
      rw [hnone]
      simp [List.lookup_cons]
    · rw [if_neg h]
      have h2 : List.lookup nm [(log.moodName,
          { count := 1, emoji := log.moodEmoji, color := log.moodColour,
            percentage := 0 : MoodCount })] = none := by
        rw [List.lookup_cons]
        have : (nm == log.moodName) = false := by simpa using h
        rw [this]
        rfl
      rw [h2, Option.or_none]

/-- The mood-count fold, seen through `lookup`/count: a name already in the
accumulator gains the number of its occurrences; a fresh name appears with
exactly its occurrence count, and a name with no occurrence stays absent. -/
theorem countMoods_lookup_count (logs : List MoodLog)
    (acc : List (String × MoodCount)) (nm : String) :
    ((countMoods logs acc).lookup nm).map (fun mc => mc.count) =
      match (acc.lookup nm).map (fun mc => mc.count) with
      | some c => some (c + (logs.filter (fun l => l.moodName == nm)).length)
      | none =>
          if (logs.filter (fun l => l.moodName == nm)).length = 0 then none
          else some ((logs.filter (fun l => l.moodName == nm)).length) := by
  induction logs generalizing acc with
  | nil =>
      cases h : (acc.lookup nm) with
      | none => simp [countMoods, h]
      | some v => simp [countMoods, h]
  | cons log rest ih =>
      show ((countMoods rest (countMoodStep acc log)).lookup nm).map _ = _
      rw [ih (countMoodStep acc log), countMoodStep_lookup_count]
      by_cases h : nm = log.moodName
      · have hb : (log.moodName == nm) = true := by simp [h]
        rw [if_pos h]
        simp only [List.filter_cons, hb, if_pos]
        cases hacc : (acc.lookup nm).map (fun mc => mc.count) with
        | none =>
            simp only [List.length_cons]
            split
            · omega
            · simp only [Option.some.injEq]; omega
        | some c =>
            simp only [List.length_cons, Option.some.injEq]
            omega
      · have hb : (log.moodName == nm) = false := by
          simp only [beq_eq_false_iff_ne, ne_eq]
          intro he; exact h he.symm
        rw [if_neg h]
        simp only [List.filter_cons, hb]
        rfl

/-- C9: the summary reports `totalLogs = logs.length`; a mood name has an
entry exactly when it appears in the logs; each entry's count is the number
of logs with that name and its percentage is `Math.round(count/total*100)`;
an empty log list yields `totalLogs = 0` and an empty `moodCounts`, while
`categories` still holds the canonical bucket keys for the period. -/
theorem claim_C9 (logs : List MoodLog) (period : Period) (startDate endDate : Int) :
    (getMoodSummary logs period startDate endDate).totalLogs = logs.length ∧
    (∀ nm : String, nm ∈ logs.map (fun l => l.moodName) ↔
      ((getMoodSummary logs period startDate endDate).moodCounts.lookup nm).isSome = true) ∧
    (∀ (nm : String) (mc : MoodCount),
      (getMoodSummary logs period startDate endDate).moodCounts.lookup nm = some mc →
      mc.count = (logs.filter (fun l => l.moodName == nm)).length ∧
      mc.percentage = roundPercentage mc.count logs.length) ∧
    (logs = [] → (getMoodSummary logs period startDate endDate).moodCounts = []) ∧
    ((getMoodSummary logs period startDate endDate).categories =
        getCategoriesForPeriod period startDate endDate ∧
      getCategoriesForPeriod Period.day startDate endDate = .hours (List.range 24) ∧
      getCategoriesForPeriod Period.week startDate endDate = .weekdays daysOfWeek ∧
      getCategoriesForPeriod Period.month startDate endDate =
        .dates ((List.range (differenceInCalendarDays endDate startDate + 1).toNat).map
          (fun i : Nat => dayNumber startDate + i))) := by
  have hmc : ∀ nm : String,
      (getMoodSummary logs period startDate endDate).moodCounts.lookup nm =
        ((countMoods logs []).lookup nm).map (fun mc =>
          { mc with percentage :=
              if logs.length > 0 then roundPercentage mc.count logs.length else 0 }) :=
    fun nm => lookup_map_keyed (countMoods logs []) nm (fun _ mc =>
      { mc with percentage :=
          if logs.length > 0 then roundPercentage mc.count logs.length else 0 })
  have key : ∀ nm : String,
      ((countMoods logs []).lookup nm).map (fun mc => mc.count) =
        if (logs.filter (fun l => l.moodName == nm)).length = 0 then none
        else some ((logs.filter (fun l => l.moodName == nm)).length) := by
    intro nm
    have h := countMoods_lookup_count logs [] nm
    simpa using h
  refine ⟨rfl, ?_, ?_, ?_, rfl, rfl, rfl, rfl⟩
  · intro nm
    have hiff : ((countMoods logs []).lookup nm).isSome = true ↔
        (logs.filter (fun l => l.moodName == nm)).length ≠ 0 := by
      have hk := key nm
      constructor
      · intro hs hlen
        rw [if_pos hlen] at hk
        obtain ⟨v, hv⟩ := Option.isSome_iff_exists.mp hs
        rw [hv] at hk
        simp at hk
      · intro hlen
        rw [if_neg hlen] at hk
        cases hc : (countMoods logs []).lookup nm with
        | none => rw [hc] at hk; simp at hk
        | some v => simp
    have hmem : nm ∈ logs.map (fun l => l.moodName) ↔
        (logs.filter (fun l => l.moodName == nm)).length ≠ 0 := by
      rw [List.mem_map]
      constructor
      · rintro ⟨l, hl, rfl⟩ hlen
        rw [List.length_eq_zero, List.filter_eq_nil_iff] at hlen
        have := hlen l hl
        simp at this
      · intro hlen
        by_contra hno
        push_neg at hno
        apply hlen
        rw [List.length_eq_zero, List.filter_eq_nil_iff]
        intro a ha
        simpa using hno a ha
    rw [hmc nm]
    have hsm : (((countMoods logs []).lookup nm).map (fun mc =>
        { mc with percentage :=
            if logs.length > 0 then roundPercentage mc.count logs.length else 0 })).isSome =
        ((countMoods logs []).lookup nm).isSome := by
      cases (countMoods logs []).lookup nm <;> rfl
    rw [hsm]
    exact hmem.trans hiff.symm
  · intro nm mc hsome
    rw [hmc nm] at hsome
    obtain ⟨mc0, hm0, hgmc⟩ := Option.map_eq_some'.mp hsome
    have hk := key nm
    rw [hm0] at hk
    by_cases hlen : (logs.filter (fun l => l.moodName == nm)).length = 0
    · rw [if_pos hlen] at hk
      simp at hk
    · rw [if_neg hlen] at hk
      have hcount0 : mc0.count = (logs.filter (fun l => l.moodName == nm)).length := by
        simpa using hk
      have hpos : 0 < logs.length :=
        Nat.lt_of_lt_of_le (Nat.pos_of_ne_zero hlen) (List.length_filter_le _ _)
      have hcount : mc.count = mc0.count := by rw [← hgmc]
      constructor
      · rw [hcount, hcount0]
      · rw [← hgmc]
        show (if logs.length > 0 then roundPercentage mc0.count logs.length else 0) =
          roundPercentage mc0.count logs.length
        rw [if_pos hpos]
  · intro hnil
    subst hnil
    rfl

/-- C9 witness: three logs, two "happy" and one "sad", in a day window:
`totalLogs = 3`, and the "happy" entry has count 2 with percentage
`round(2/3*100) = 67`. -/
theorem claim_C9_witness :
    (getMoodSummary [⟨1, "happy", "e", "c"⟩, ⟨2, "happy", "e", "c"⟩,
        ⟨3, "sad", "f", "d"⟩] Period.day 0 23).totalLogs =
      ([⟨1, "happy", "e", "c"⟩, ⟨2, "happy", "e", "c"⟩,
        ⟨3, "sad", "f", "d"⟩] : List MoodLog).length ∧
    (⟨2, "e", "c", 67⟩ : MoodCount).count =
      (([⟨1, "happy", "e", "c"⟩, ⟨2, "happy", "e", "c"⟩,
        ⟨3, "sad", "f", "d"⟩] : List MoodLog).filter
          (fun l => l.moodName == "happy")).length ∧
    (⟨2, "e", "c", 67⟩ : MoodCount).percentage =
      roundPercentage (⟨2, "e", "c", 67⟩ : MoodCount).count
        ([⟨1, "happy", "e", "c"⟩, ⟨2, "happy", "e", "c"⟩,
          ⟨3, "sad", "f", "d"⟩] : List MoodLog).length := by
  refine ⟨(claim_C9 [⟨1, "happy", "e", "c"⟩, ⟨2, "happy", "e", "c"⟩,
      ⟨3, "sad", "f", "d"⟩] Period.day 0 23).1, ?_, ?_⟩
  · exact ((claim_C9 [⟨1, "happy", "e", "c"⟩, ⟨2, "happy", "e", "c"⟩,
      ⟨3, "sad", "f", "d"⟩] Period.day 0 23).2.2.1 "happy" ⟨2, "e", "c", 67⟩ (by decide)).1
  · exact ((claim_C9 [⟨1, "happy", "e", "c"⟩, ⟨2, "happy", "e", "c"⟩,
      ⟨3, "sad", "f", "d"⟩] Period.day 0 23).2.2.1 "happy" ⟨2, "e", "c", 67⟩ (by decide)).2
